import Mathlib

/-!
AgentPrediction indexer: the derived-state store, the log handler and the query handler.

A shallow embedding of `src/go/main.go`.  Go maps keyed by `string` are association lists with
unique keys, the `*marketStore` receiver is passed explicitly, `*big.Int` is `Int`, `uint64` is
`Nat`, and the wall clock read by `formatTime` is an explicit input.  The `sync.RWMutex` is not
modelled: every method below is one critical section executed in isolation.
-/

namespace AgentPrediction

/-! ## Go maps with string keys -/

/-- A Go `map[string]V`: an association list in which every key occurs at most once. -/
abbrev GoMap (V : Type) := List (String × V)

/-- The comma-ok lookup `value, ok := m[k]`. -/
def GoMap.get? {V : Type} : GoMap V → String → Option V
  | [], _ => none
  | (k0, v0) :: rest, k => if k0 = k then some v0 else GoMap.get? rest k

/-- The assignment `m[k] = v`: overwrite the entry of `k` when there is one, else add one. -/
def GoMap.set {V : Type} : GoMap V → String → V → GoMap V
  | [], k, v => [(k, v)]
  | (k0, v0) :: rest, k, v => if k0 = k then (k, v) :: rest else (k0, v0) :: GoMap.set rest k v

/-- The plain index `m[k]` of a map of slices: the nil slice when the key is missing. -/
def GoMap.index {V : Type} (m : GoMap (List V)) (k : String) : List V :=
  (GoMap.get? m k).getD []

/-! ## Event records and the store -/

structure marketCreatedEvent where
  MarketId : String
  Creator : String
  Question : String
  EndTime : String
  InitialYesPred : String
  InitialNoPred : String
  TxHash : String
  BlockNumber : Nat
  Timestamp : String
deriving DecidableEq, Repr

structure commentEvent where
  MarketId : String
  User : String
  Content : String
  TxHash : String
  BlockNumber : Nat
  Timestamp : String
deriving DecidableEq, Repr

structure danmakuEvent where
  MarketId : String
  User : String
  Content : String
  TxHash : String
  BlockNumber : Nat
  Timestamp : String
deriving DecidableEq, Repr

/-- A trade record; a field left out of the Go composite literal has the zero value `""`.
The Go field `Type` is written `Type_`, `Type` being reserved. -/
structure tradeEvent where
  Type_ : String
  MarketId : String
  User : String
  IsYes : Bool
  PredIn : String := ""
  SharesOut : String := ""
  SharesIn : String := ""
  PredOut : String := ""
  TxHash : String
  BlockNumber : Nat
  Timestamp : String
deriving DecidableEq, Repr

structure marketSnapshot where
  Created : Option marketCreatedEvent
  Comments : List commentEvent
  Danmaku : List danmakuEvent
  Trades : List tradeEvent
deriving DecidableEq, Repr

structure marketStore where
  created : GoMap marketCreatedEvent
  comments : GoMap (List commentEvent)
  danmaku : GoMap (List danmakuEvent)
  trades : GoMap (List tradeEvent)
deriving DecidableEq, Repr

def newMarketStore : marketStore :=
  { created := [], comments := [], danmaku := [], trades := [] }

def marketStore.addMarketCreated (s : marketStore) (e : marketCreatedEvent) : marketStore :=
  { s with created := GoMap.set s.created e.MarketId e }

def marketStore.addComment (s : marketStore) (e : commentEvent) : marketStore :=
  { s with comments := GoMap.set s.comments e.MarketId (GoMap.index s.comments e.MarketId ++ [e]) }

def marketStore.addDanmaku (s : marketStore) (e : danmakuEvent) : marketStore :=
  { s with danmaku := GoMap.set s.danmaku e.MarketId (GoMap.index s.danmaku e.MarketId ++ [e]) }

def marketStore.addTrade (s : marketStore) (e : tradeEvent) : marketStore :=
  { s with trades := GoMap.set s.trades e.MarketId (GoMap.index s.trades e.MarketId ++ [e]) }

/-- The snapshot of one market and the store after the call.  `append([]T(nil), xs...)` copies
`xs` onto the nil slice. -/
def marketStore.getSnapshot (s : marketStore) (marketId : String) : marketSnapshot × marketStore :=
  let created : Option marketCreatedEvent :=
    match GoMap.get? s.created marketId with
    | some value => some value
    | none => none
  ({ Created := created
     Comments := [] ++ GoMap.index s.comments marketId
     Danmaku := [] ++ GoMap.index s.danmaku marketId
     Trades := [] ++ GoMap.index s.trades marketId }, s)

/-- The values of the `created` map in the order of the association list, and the store after
the call.  Go ranges over a map in an order of its choosing, so a caller may receive any
permutation of the first component. -/
def marketStore.listCreated (s : marketStore) : List marketCreatedEvent × marketStore :=
  (s.created.foldl (fun out entry => out ++ [entry.2]) [], s)

/-! ## Sequences of fold operations -/

/-- One call of a fold method of the store. -/
inductive FoldOp where
  | marketCreated (e : marketCreatedEvent)
  | trade (e : tradeEvent)
  | comment (e : commentEvent)
  | danmaku (e : danmakuEvent)
deriving DecidableEq, Repr

def FoldOp.MarketId : FoldOp → String
  | .marketCreated e => e.MarketId
  | .trade e => e.MarketId
  | .comment e => e.MarketId
  | .danmaku e => e.MarketId

def FoldOp.apply (s : marketStore) : FoldOp → marketStore
  | .marketCreated e => s.addMarketCreated e
  | .trade e => s.addTrade e
  | .comment e => s.addComment e
  | .danmaku e => s.addDanmaku e

/-- The store after the operations of `ops` were applied in order, starting from `s`. -/
def foldFrom (s : marketStore) (ops : List FoldOp) : marketStore :=
  ops.foldl FoldOp.apply s

/-- The store reached from the empty store. -/
def foldAll (ops : List FoldOp) : marketStore :=
  foldFrom newMarketStore ops

def tradesOf (m : String) (ops : List FoldOp) : List tradeEvent :=
  ops.filterMap fun op =>
    match op with
    | .trade e => if e.MarketId = m then some e else none
    | _ => none

def commentsOf (m : String) (ops : List FoldOp) : List commentEvent :=
  ops.filterMap fun op =>
    match op with
    | .comment e => if e.MarketId = m then some e else none
    | _ => none

def danmakuOf (m : String) (ops : List FoldOp) : List danmakuEvent :=
  ops.filterMap fun op =>
    match op with
    | .danmaku e => if e.MarketId = m then some e else none
    | _ => none

def createdOf (m : String) (ops : List FoldOp) : List marketCreatedEvent :=
  ops.filterMap fun op =>
    match op with
    | .marketCreated e => if e.MarketId = m then some e else none
    | _ => none

/-! ## Raw logs, the parsed ABI and the library calls of `handleLog` -/

/-- A `common.Hash`: the big-endian value of its 32 bytes. -/
abbrev Hash := Nat

/-- A `common.Address`: the big-endian value of its 20 bytes. -/
abbrev Address := Nat

/-- A `types.Log`, restricted to the fields `handleLog` reads. -/
structure Log where
  Topics : List Hash
  Data : List Nat
  TxHash : Hash
  BlockNumber : Nat
deriving DecidableEq, Repr

/-- The argument types that occur in `predictionMarketABI`. -/
inductive ArgType where
  | uint256
  | address
  | string
  | bool
deriving DecidableEq, Repr

/-- An `abi.Argument`. -/
structure Argument where
  Name : String
  Type_ : ArgType
  Indexed : Bool
deriving DecidableEq, Repr

/-- An `abi.Event`, restricted to `ID` and `Inputs`. -/
structure Event where
  ID : Hash
  Inputs : List Argument
deriving DecidableEq, Repr

/-- An `abi.ABI`, restricted to its `Events` map. -/
structure ABI where
  Events : GoMap Event
deriving DecidableEq, Repr

/-- The index `parsedABI.Events[name]`: the zero `Event` when the name is missing. -/
def ABI.event (parsedABI : ABI) (name : String) : Event :=
  (GoMap.get? parsedABI.Events name).getD { ID := 0, Inputs := [] }

/-- The result of `abi.JSON` on the constant `predictionMarketABI`.  The ID of an event is the
Keccak-256 hash of its signature; the hash is not computed here, `id` gives it per event name. -/
def predictionMarketABI (id : String → Hash) : ABI :=
  { Events :=
      [ ("MarketCreated",
          { ID := id "MarketCreated"
            Inputs :=
              [ { Name := "marketId", Type_ := .uint256, Indexed := true },
                { Name := "creator", Type_ := .address, Indexed := true },
                { Name := "question", Type_ := .string, Indexed := false },
                { Name := "endTime", Type_ := .uint256, Indexed := false },
                { Name := "initialYesPred", Type_ := .uint256, Indexed := false },
                { Name := "initialNoPred", Type_ := .uint256, Indexed := false } ] }),
        ("SharesBought",
          { ID := id "SharesBought"
            Inputs :=
              [ { Name := "marketId", Type_ := .uint256, Indexed := true },
                { Name := "user", Type_ := .address, Indexed := true },
                { Name := "isYes", Type_ := .bool, Indexed := false },
                { Name := "predIn", Type_ := .uint256, Indexed := false },
                { Name := "sharesOut", Type_ := .uint256, Indexed := false } ] }),
        ("SharesSold",
          { ID := id "SharesSold"
            Inputs :=
              [ { Name := "marketId", Type_ := .uint256, Indexed := true },
                { Name := "user", Type_ := .address, Indexed := true },
                { Name := "isYes", Type_ := .bool, Indexed := false },
                { Name := "sharesIn", Type_ := .uint256, Indexed := false },
                { Name := "predOut", Type_ := .uint256, Indexed := false } ] }),
        ("Comment",
          { ID := id "Comment"
            Inputs :=
              [ { Name := "marketId", Type_ := .uint256, Indexed := true },
                { Name := "user", Type_ := .address, Indexed := true },
                { Name := "content", Type_ := .string, Indexed := false } ] }),
        ("Danmaku",
          { ID := id "Danmaku"
            Inputs :=
              [ { Name := "marketId", Type_ := .uint256, Indexed := true },
                { Name := "user", Type_ := .address, Indexed := true },
                { Name := "content", Type_ := .string, Indexed := false } ] }) ] }

structure marketCreatedData where
  Question : String
  EndTime : Int
  InitialYesPred : Int
  InitialNoPred : Int
deriving DecidableEq, Repr

structure sharesBoughtData where
  IsYes : Bool
  PredIn : Int
  SharesOut : Int
deriving DecidableEq, Repr

structure sharesSoldData where
  IsYes : Bool
  SharesIn : Int
  PredOut : Int
deriving DecidableEq, Repr

structure commentData where
  Content : String
deriving DecidableEq, Repr

def indexedArgs (args : List Argument) : List Argument :=
  args.foldl (fun indexed arg => if arg.Indexed then indexed ++ [arg] else indexed) []

/-- The go-ethereum calls of `handleLog` whose code is not part of this repository, taken as
parameters: the renderings `Address.Hex` and `Hash.Hex`, and `ABI.UnpackIntoInterface` at each
of the four destination types, as a function of the ABI, the event name and the payload.  A
successful unpack fills every field of the destination. -/
structure Geth where
  addressHex : Address → String
  hashHex : Hash → String
  unpackMarketCreated : ABI → String → List Nat → Except String marketCreatedData
  unpackSharesBought : ABI → String → List Nat → Except String sharesBoughtData
  unpackSharesSold : ABI → String → List Nat → Except String sharesSoldData
  unpackComment : ABI → String → List Nat → Except String commentData

/-- A value reconstructed from one indexed topic. -/
inductive TopicValue where
  | bigInt (v : Int)
  | address (a : Address)
  | hash (h : Hash)
  | bool (b : Bool)
deriving DecidableEq, Repr

/-- Modelled from the spec: the per-type reading of one topic inside `abi.ParseTopics`
(go-ethereum, not in src/), "parse each indexed-topic value according to its declared type
(integer, address/identifier, boolean)".  An integer is the value of the 32 bytes, an address
is their last 20 bytes, a boolean is 0 or 1, and an indexed string is left as its hash. -/
def parseTopic (t : ArgType) (topic : Hash) : Except String TopicValue :=
  match t with
  | .uint256 => .ok (.bigInt (Int.ofNat topic))
  | .address => .ok (.address (topic % 2 ^ 160))
  | .string => .ok (.hash topic)
  | .bool =>
    if topic = 0 then .ok (.bool false)
    else if topic = 1 then .ok (.bool true)
    else .error "abi: improperly encoded boolean value"

/-- Modelled from the spec: the loop of `abi.ParseTopics` over the fields, pairing the i-th
field with the i-th topic and recording the value under the capitalised field name. -/
def parseTopicFields : List Argument → List Hash → Except String (List (String × TopicValue))
  | arg :: fields, topic :: topics =>
    match parseTopic arg.Type_ topic with
    | .error err => .error err
    | .ok value =>
      match parseTopicFields fields topics with
      | .error err => .error err
      | .ok out => .ok ((arg.Name.capitalize, value) :: out)
  | _, _ => .ok []

/-- Modelled from the spec: `abi.ParseTopics` (go-ethereum, not in src/), which "fails with
TopicDecodeError if the topic count doesn't match the expected indexed-argument count" and
otherwise parses each topic by the declared type of its field.  The result lists the values
assigned to the fields of the destination struct, by field name. -/
def ParseTopics (fields : List Argument) (topics : List Hash) :
    Except String (List (String × TopicValue)) :=
  if fields.length ≠ topics.length then .error "topic/field count mismatch"
  else parseTopicFields fields topics

/-- The `*big.Int` field `name` of the struct `indexed`: nil unless `ParseTopics` assigned it. -/
def fieldBigInt (indexed : List (String × TopicValue)) (name : String) : Option Int :=
  match GoMap.get? indexed name with
  | some (.bigInt v) => some v
  | _ => none

/-- The `common.Address` field `name` of the struct `indexed`: the zero address unless
`ParseTopics` assigned it. -/
def fieldAddress (indexed : List (String × TopicValue)) (name : String) : Address :=
  match GoMap.get? indexed name with
  | some (.address a) => a
  | _ => 0

/-- The method `(*big.Int).String`: the decimal digits, and `<nil>` on the nil pointer. -/
def bigIntString : Option Int → String
  | some v => toString v
  | none => "<nil>"

/-- A reading of the wall clock, `time.Now()`, in calendar fields. -/
structure Time where
  Year : Nat
  Month : Nat
  Day : Nat
  Hour : Nat
  Minute : Nat
  Second : Nat
deriving DecidableEq, Repr

/-- The decimal digits of `n`, padded with zeros on the left to `width` characters. -/
def zeroPad (width n : Nat) : String :=
  String.mk (List.replicate (width - (toString n).length) '0') ++ toString n

/-- The body of `formatTime`, with the clock reading `time.Now()` as an argument: the layout
`2006-01-02 15:04:05`. -/
def formatTime (now : Time) : String :=
  zeroPad 4 now.Year ++ "-" ++ zeroPad 2 now.Month ++ "-" ++ zeroPad 2 now.Day ++ " " ++
    zeroPad 2 now.Hour ++ ":" ++ zeroPad 2 now.Minute ++ ":" ++ zeroPad 2 now.Second

/-- The function `handleLog`, as a function of the library `geth`, of the clock reading `now`
taken by the `formatTime()` call that fills `Timestamp`, and of the store before the call.
The result is the store after the call; `none` is the run-time panic of `vLog.Topics[0]` on a
log without topics.  The lines written to the process log and to standard output are not
part of the state. -/
def handleLog (geth : Geth) (now : Time) (parsedABI : ABI) (vLog : Log) (store : marketStore) :
    Option marketStore :=
  match vLog.Topics with
  | [] => none
  | topic0 :: topics =>
    if topic0 = (parsedABI.event "MarketCreated").ID then
      match ParseTopics (indexedArgs (parsedABI.event "MarketCreated").Inputs) topics with
      | .error _ => some store
      | .ok indexed =>
        match geth.unpackMarketCreated parsedABI "MarketCreated" vLog.Data with
        | .error _ => some store
        | .ok data =>
          some (store.addMarketCreated
            { MarketId := bigIntString (fieldBigInt indexed "MarketId")
              Creator := geth.addressHex (fieldAddress indexed "Creator")
              Question := data.Question
              EndTime := bigIntString (some data.EndTime)
              InitialYesPred := bigIntString (some data.InitialYesPred)
              InitialNoPred := bigIntString (some data.InitialNoPred)
              TxHash := geth.hashHex vLog.TxHash
              BlockNumber := vLog.BlockNumber
              Timestamp := formatTime now })
    else if topic0 = (parsedABI.event "SharesBought").ID then
      match ParseTopics (indexedArgs (parsedABI.event "SharesBought").Inputs) topics with
      | .error _ => some store
      | .ok indexed =>
        match geth.unpackSharesBought parsedABI "SharesBought" vLog.Data with
        | .error _ => some store
        | .ok data =>
          some (store.addTrade
            { Type_ := "buy"
              MarketId := bigIntString (fieldBigInt indexed "MarketId")
              User := geth.addressHex (fieldAddress indexed "User")
              IsYes := data.IsYes
              PredIn := bigIntString (some data.PredIn)
              SharesOut := bigIntString (some data.SharesOut)
              TxHash := geth.hashHex vLog.TxHash
              BlockNumber := vLog.BlockNumber
              Timestamp := formatTime now })
    else if topic0 = (parsedABI.event "SharesSold").ID then
      match ParseTopics (indexedArgs (parsedABI.event "SharesSold").Inputs) topics with
      | .error _ => some store
      | .ok indexed =>
        match geth.unpackSharesSold parsedABI "SharesSold" vLog.Data with
        | .error _ => some store
        | .ok data =>
          some (store.addTrade
            { Type_ := "sell"
              MarketId := bigIntString (fieldBigInt indexed "MarketId")
              User := geth.addressHex (fieldAddress indexed "User")
              IsYes := data.IsYes
              SharesIn := bigIntString (some data.SharesIn)
              PredOut := bigIntString (some data.PredOut)
              TxHash := geth.hashHex vLog.TxHash
              BlockNumber := vLog.BlockNumber
              Timestamp := formatTime now })
    else if topic0 = (parsedABI.event "Comment").ID then
      match ParseTopics (indexedArgs (parsedABI.event "Comment").Inputs) topics with
      | .error _ => some store
      | .ok indexed =>
        match geth.unpackComment parsedABI "Comment" vLog.Data with
        | .error _ => some store
        | .ok data =>
          some (store.addComment
            { MarketId := bigIntString (fieldBigInt indexed "MarketId")
              User := geth.addressHex (fieldAddress indexed "User")
              Content := data.Content
              TxHash := geth.hashHex vLog.TxHash
              BlockNumber := vLog.BlockNumber
              Timestamp := formatTime now })
    else if topic0 = (parsedABI.event "Danmaku").ID then
      match ParseTopics (indexedArgs (parsedABI.event "Danmaku").Inputs) topics with
      | .error _ => some store
      | .ok indexed =>
        match geth.unpackComment parsedABI "Danmaku" vLog.Data with
        | .error _ => some store
        | .ok data =>
          some (store.addDanmaku
            { MarketId := bigIntString (fieldBigInt indexed "MarketId")
              User := geth.addressHex (fieldAddress indexed "User")
              Content := data.Content
              TxHash := geth.hashHex vLog.TxHash
              BlockNumber := vLog.BlockNumber
              Timestamp := formatTime now })
    else some store

/-! ## The query handler of `startHTTPServer` -/

/-- The value handed to `writeJSON`, or the text written by `http.NotFound`. -/
inductive Payload where
  | snapshot (v : marketSnapshot)
  | comments (v : List commentEvent)
  | danmaku (v : List danmakuEvent)
  | trades (v : List tradeEvent)
  | created (v : marketCreatedEvent)
  | createdList (v : List marketCreatedEvent)
  | text (v : String)
deriving DecidableEq, Repr

/-- What a handler wrote: the status code and the body. -/
structure Response where
  status : Nat
  payload : Payload
deriving DecidableEq, Repr

def writeJSON (status : Nat) (payload : Payload) : Response :=
  { status := status, payload := payload }

/-- The reply of `http.NotFound`: status 404 and the line `404 page not found`. -/
def NotFound : Response :=
  { status := 404, payload := .text "404 page not found\n" }

/-- The remainder of `s` after the characters of `p`, when `s` starts with them. -/
def dropPrefixChars : List Char → List Char → Option (List Char)
  | s, [] => some s
  | [], _ :: _ => none
  | c :: cs, p :: ps => if c = p then dropPrefixChars cs ps else none

/-- The function `strings.TrimPrefix`. -/
def TrimPrefix (s p : String) : String :=
  match dropPrefixChars s.data p.data with
  | some rest => String.mk rest
  | none => s

/-- The pieces of a character list between the occurrences of `sep`. -/
def splitChars (sep : Char) : List Char → List (List Char)
  | [] => [[]]
  | c :: cs =>
    if c = sep then [] :: splitChars sep cs
    else
      match splitChars sep cs with
      | [] => [[c]]
      | part :: parts => (c :: part) :: parts

/-- The function `strings.Split` for a separator of one character. -/
def Split (s : String) (sep : Char) : List String :=
  (splitChars sep s.data).map String.mk

/-- The handler registered for the pattern `/markets/`, as a function of the store and of
`r.URL.Path`.  `Split` returns at least one part, so `parts[0]` is in range, and `parts[1]` is
read only when `len(parts)` is not 1. -/
def marketsHandler (store : marketStore) (urlPath : String) : Response :=
  let path := TrimPrefix urlPath "/markets/"
  if path = "" then NotFound
  else
    let parts := Split path '/'
    let marketId := parts.getD 0 ""
    if marketId = "" then NotFound
    else if parts.length = 1 then
      writeJSON 200 (.snapshot (store.getSnapshot marketId).1)
    else
      let sub := parts.getD 1 ""
      if sub = "comments" then writeJSON 200 (.comments (store.getSnapshot marketId).1.Comments)
      else if sub = "danmaku" then writeJSON 200 (.danmaku (store.getSnapshot marketId).1.Danmaku)
      else if sub = "trades" then writeJSON 200 (.trades (store.getSnapshot marketId).1.Trades)
      else if sub = "created" then
        match (store.getSnapshot marketId).1.Created with
        | none => NotFound
        | some created => writeJSON 200 (.created created)
      else NotFound

/-! ## Counting the events of one market, and the scenario of the specification -/

def isTradeOf (m : String) : FoldOp → Bool
  | .trade e => decide (e.MarketId = m)
  | _ => false

def isCommentOf (m : String) : FoldOp → Bool
  | .comment e => decide (e.MarketId = m)
  | _ => false

def isDanmakuOf (m : String) : FoldOp → Bool
  | .danmaku e => decide (e.MarketId = m)
  | _ => false

/-- The market ids of the `MarketCreated` events of a sequence, in order, with repetitions. -/
def createdIds (ops : List FoldOp) : List String :=
  ops.filterMap fun op =>
    match op with
    | .marketCreated e => some e.MarketId
    | _ => none

/-- The `MarketCreated` event of the scenario. -/
def rainCreated : marketCreatedEvent :=
  { MarketId := "1", Creator := "0xabc", Question := "Will it rain?", EndTime := "100",
    InitialYesPred := "50", InitialNoPred := "50", TxHash := "0x01", BlockNumber := 7,
    Timestamp := "2024-05-06 07:08:09" }

/-- The buy of the scenario. -/
def rainBuy : tradeEvent :=
  { Type_ := "buy", MarketId := "1", User := "0xdef", IsYes := true, PredIn := "10",
    SharesOut := "9", TxHash := "0x02", BlockNumber := 8, Timestamp := "2024-05-06 07:08:10" }

/-- A second `MarketCreated` event for market 1, with another question. -/
def snowCreated : marketCreatedEvent :=
  { rainCreated with Question := "Will it snow?", TxHash := "0x03", BlockNumber := 9 }

/-! ## Statement vocabulary for the log handler, and a concrete library instance -/

/-- The names of the five events of `predictionMarketABI`, in the order of the `switch`. -/
def eventNames : List String :=
  ["MarketCreated", "SharesBought", "SharesSold", "Comment", "Danmaku"]

/-- Whether the `UnpackIntoInterface` call in the branch of event `name` returns an error. -/
def unpackFails (geth : Geth) (parsedABI : ABI) (name : String) (data : List Nat) : Bool :=
  if name = "MarketCreated" then
    match geth.unpackMarketCreated parsedABI name data with
    | .error _ => true
    | .ok _ => false
  else if name = "SharesBought" then
    match geth.unpackSharesBought parsedABI name data with
    | .error _ => true
    | .ok _ => false
  else if name = "SharesSold" then
    match geth.unpackSharesSold parsedABI name data with
    | .error _ => true
    | .ok _ => false
  else
    match geth.unpackComment parsedABI name data with
    | .error _ => true
    | .ok _ => false

/-- Whether `ParseTopics` returns an error. -/
def parseTopicsFails (fields : List Argument) (topics : List Hash) : Bool :=
  match ParseTopics fields topics with
  | .error _ => true
  | .ok _ => false

/-- The same fold with another `Timestamp`. -/
def FoldOp.withTimestamp (op : FoldOp) (ts : String) : FoldOp :=
  match op with
  | .marketCreated e => .marketCreated { e with Timestamp := ts }
  | .trade e => .trade { e with Timestamp := ts }
  | .comment e => .comment { e with Timestamp := ts }
  | .danmaku e => .danmaku { e with Timestamp := ts }

/-- The big-endian value of the 32-byte word number `i` of a payload, when it is complete. -/
def wordAt (data : List Nat) (i : Nat) : Option Nat :=
  let word := (data.drop (32 * i)).take 32
  if word.length = 32 then some (word.foldl (fun acc b => acc * 256 + b) 0) else none

/-- The 32-byte word of a value below 256. -/
def word32 (n : Nat) : List Nat :=
  List.replicate 31 0 ++ [n]

/-- A payload of one boolean word followed by two integer words. -/
def unpackBoolIntInt (data : List Nat) : Except String (Bool × Int × Int) :=
  match wordAt data 0, wordAt data 1, wordAt data 2 with
  | some b, some x, some y =>
    if b ≤ 1 then .ok (decide (b = 1), Int.ofNat x, Int.ofNat y)
    else .error "abi: improperly encoded boolean value"
  | _, _, _ => .error "abi: cannot marshal in to go type: length insufficient"

/-- The string whose offset is the head word number `i` of a payload. -/
def unpackStringAt (data : List Nat) (i : Nat) : Except String String :=
  match wordAt data i with
  | none => .error "abi: cannot marshal in to go type: length insufficient"
  | some offset =>
    match wordAt (data.drop offset) 0 with
    | none => .error "abi: cannot marshal in to go type: length insufficient"
    | some len =>
      if ((data.drop (offset + 32)).take len).length = len then
        .ok (String.mk (((data.drop (offset + 32)).take len).map Char.ofNat))
      else .error "abi: cannot marshal in to go type: length insufficient"

/-- The digits of `n` in base 16, padded with zeros to `width` characters, after `0x`. -/
def hexString (width n : Nat) : String :=
  "0x" ++ String.mk (List.replicate (width - (Nat.toDigits 16 n).length) '0') ++
    String.mk (Nat.toDigits 16 n)

/-- A concrete instance of the library calls, on which the handler can be evaluated: a word
by word reading of the payload, and the lower-case hexadecimal rendering of addresses and
hashes (without the mixed-case checksum of `Address.Hex`). -/
def sampleGeth : Geth :=
  { addressHex := hexString 40
    hashHex := hexString 64
    unpackMarketCreated := fun _ _ data =>
      match unpackStringAt data 0, wordAt data 1, wordAt data 2, wordAt data 3 with
      | .ok q, some e, some y, some n =>
        .ok { Question := q, EndTime := Int.ofNat e, InitialYesPred := Int.ofNat y,
              InitialNoPred := Int.ofNat n }
      | _, _, _, _ => .error "abi: cannot marshal in to go type: length insufficient"
    unpackSharesBought := fun _ _ data =>
      match unpackBoolIntInt data with
      | .ok (b, x, y) => .ok { IsYes := b, PredIn := x, SharesOut := y }
      | .error err => .error err
    unpackSharesSold := fun _ _ data =>
      match unpackBoolIntInt data with
      | .ok (b, x, y) => .ok { IsYes := b, SharesIn := x, PredOut := y }
      | .error err => .error err
    unpackComment := fun _ _ data =>
      match unpackStringAt data 0 with
      | .ok c => .ok { Content := c }
      | .error err => .error err }

/-- Five distinct stand-ins for the Keccak-256 event IDs. -/
def sampleID (name : String) : Hash :=
  if name = "MarketCreated" then 101
  else if name = "SharesBought" then 102
  else if name = "SharesSold" then 103
  else if name = "Comment" then 104
  else if name = "Danmaku" then 105
  else 0

def sampleABI : ABI :=
  predictionMarketABI sampleID

/-- A `SharesBought` log of market 1: user `0xdef`, yes side, 10 in, 9 out. -/
def buyLog : Log :=
  { Topics := [102, 1, 0xdef], Data := word32 1 ++ word32 10 ++ word32 9, TxHash := 2,
    BlockNumber := 8 }

/-- A `SharesSold` log of market 1: user `0xdef`, no side, 4 shares in, 3 out. -/
def sellLog : Log :=
  { Topics := [103, 1, 0xdef], Data := word32 0 ++ word32 4 ++ word32 3, TxHash := 5,
    BlockNumber := 9 }

/-- A log whose signature is none of the five event IDs. -/
def unknownLog : Log :=
  { Topics := [999, 1, 0xdef], Data := word32 1, TxHash := 3, BlockNumber := 8 }

/-- A `SharesBought` log with one topic after the signature instead of two. -/
def shortTopicsLog : Log :=
  { Topics := [102, 1], Data := word32 1 ++ word32 10 ++ word32 9, TxHash := 4,
    BlockNumber := 8 }

/-- A `SharesBought` log whose payload stops after two words. -/
def shortDataLog : Log :=
  { Topics := [102, 1, 0xdef], Data := word32 1 ++ word32 10, TxHash := 4, BlockNumber := 8 }

def clockA : Time :=
  { Year := 2024, Month := 5, Day := 6, Hour := 7, Minute := 8, Second := 9 }

def clockB : Time :=
  { Year := 2024, Month := 5, Day := 6, Hour := 7, Minute := 8, Second := 10 }

/-- The store after the two events of the scenario. -/
def rainStore : marketStore :=
  (newMarketStore.addMarketCreated rainCreated).addTrade rainBuy

/-- The shape of the `created` map that the fold methods maintain: no key occurs twice, and
every event is stored under its own market id. -/
def createdWellFormed (c : GoMap marketCreatedEvent) : Prop :=
  (c.map Prod.fst).Nodup ∧ ∀ p ∈ c, p.2.MarketId = p.1

/-! ## Lemmas on maps -/

theorem GoMap.get?_set_self {V : Type} (m : GoMap V) (k : String) (v : V) :
    GoMap.get? (GoMap.set m k v) k = some v := by
  induction m with
  | nil => simp [GoMap.set, GoMap.get?]
  | cons hd tl ih =>
    obtain ⟨k0, v0⟩ := hd
    by_cases h : k0 = k
    · simp [GoMap.set, GoMap.get?, h]
    · simp [GoMap.set, GoMap.get?, h, ih]

theorem GoMap.get?_set_other {V : Type} (m : GoMap V) (k k1 : String) (v : V) (h : k ≠ k1) :
    GoMap.get? (GoMap.set m k v) k1 = GoMap.get? m k1 := by
  induction m with
  | nil => simp [GoMap.set, GoMap.get?, h]
  | cons hd tl ih =>
    obtain ⟨k0, v0⟩ := hd
    by_cases h0 : k0 = k
    · subst h0
      simp [GoMap.set, GoMap.get?, h]
    · simp [GoMap.set, GoMap.get?, h0, ih]

theorem GoMap.index_set_self {V : Type} (m : GoMap (List V)) (k : String) (v : List V) :
    GoMap.index (GoMap.set m k v) k = v := by
  simp [GoMap.index, GoMap.get?_set_self]

theorem GoMap.index_set_other {V : Type} (m : GoMap (List V)) (k k1 : String) (v : List V)
    (h : k ≠ k1) : GoMap.index (GoMap.set m k v) k1 = GoMap.index m k1 := by
  simp [GoMap.index, GoMap.get?_set_other m k k1 v h]

/-! ## The store after one fold and after a sequence of folds -/

theorem trades_apply (s : marketStore) (op : FoldOp) (m : String) :
    GoMap.index (FoldOp.apply s op).trades m = GoMap.index s.trades m ++ tradesOf m [op] := by
  cases op with
  | trade e =>
    by_cases h : e.MarketId = m
    · subst h
      simp [FoldOp.apply, marketStore.addTrade, tradesOf, GoMap.index_set_self]
    · simp [FoldOp.apply, marketStore.addTrade, tradesOf, h,
        GoMap.index_set_other _ _ _ _ h]
  | _ => simp [FoldOp.apply, marketStore.addMarketCreated, marketStore.addComment,
      marketStore.addDanmaku, tradesOf]

theorem comments_apply (s : marketStore) (op : FoldOp) (m : String) :
    GoMap.index (FoldOp.apply s op).comments m =
      GoMap.index s.comments m ++ commentsOf m [op] := by
  cases op with
  | comment e =>
    by_cases h : e.MarketId = m
    · subst h
      simp [FoldOp.apply, marketStore.addComment, commentsOf, GoMap.index_set_self]
    · simp [FoldOp.apply, marketStore.addComment, commentsOf, h,
        GoMap.index_set_other _ _ _ _ h]
  | _ => simp [FoldOp.apply, marketStore.addMarketCreated, marketStore.addTrade,
      marketStore.addDanmaku, commentsOf]

theorem danmaku_apply (s : marketStore) (op : FoldOp) (m : String) :
    GoMap.index (FoldOp.apply s op).danmaku m =
      GoMap.index s.danmaku m ++ danmakuOf m [op] := by
  cases op with
  | danmaku e =>
    by_cases h : e.MarketId = m
    · subst h
      simp [FoldOp.apply, marketStore.addDanmaku, danmakuOf, GoMap.index_set_self]
    · simp [FoldOp.apply, marketStore.addDanmaku, danmakuOf, h,
        GoMap.index_set_other _ _ _ _ h]
  | _ => simp [FoldOp.apply, marketStore.addMarketCreated, marketStore.addTrade,
      marketStore.addComment, danmakuOf]

theorem created_apply (s : marketStore) (op : FoldOp) (m : String) :
    GoMap.get? (FoldOp.apply s op).created m =
      match (createdOf m [op]).getLast? with
      | some e => some e
      | none => GoMap.get? s.created m := by
  cases op with
  | marketCreated e =>
    by_cases h : e.MarketId = m
    · subst h
      simp [FoldOp.apply, marketStore.addMarketCreated, createdOf, GoMap.get?_set_self]
    · simp [FoldOp.apply, marketStore.addMarketCreated, createdOf, h,
        GoMap.get?_set_other _ _ _ _ h]
  | _ => simp [FoldOp.apply, marketStore.addComment, marketStore.addTrade,
      marketStore.addDanmaku, createdOf]

theorem foldFrom_cons (s : marketStore) (op : FoldOp) (ops : List FoldOp) :
    foldFrom s (op :: ops) = foldFrom (FoldOp.apply s op) ops := rfl

theorem tradesOf_cons (m : String) (op : FoldOp) (ops : List FoldOp) :
    tradesOf m (op :: ops) = tradesOf m [op] ++ tradesOf m ops := by
  cases op <;> simp [tradesOf, List.filterMap_cons]
  split <;> simp

theorem commentsOf_cons (m : String) (op : FoldOp) (ops : List FoldOp) :
    commentsOf m (op :: ops) = commentsOf m [op] ++ commentsOf m ops := by
  cases op <;> simp [commentsOf, List.filterMap_cons]
  split <;> simp

theorem danmakuOf_cons (m : String) (op : FoldOp) (ops : List FoldOp) :
    danmakuOf m (op :: ops) = danmakuOf m [op] ++ danmakuOf m ops := by
  cases op <;> simp [danmakuOf, List.filterMap_cons]
  split <;> simp

theorem createdOf_cons (m : String) (op : FoldOp) (ops : List FoldOp) :
    createdOf m (op :: ops) = createdOf m [op] ++ createdOf m ops := by
  cases op <;> simp [createdOf, List.filterMap_cons]
  split <;> simp

theorem trades_foldFrom (ops : List FoldOp) (s : marketStore) (m : String) :
    GoMap.index (foldFrom s ops).trades m = GoMap.index s.trades m ++ tradesOf m ops := by
  induction ops generalizing s with
  | nil => simp [foldFrom, tradesOf]
  | cons op ops ih =>
    rw [foldFrom_cons, ih, trades_apply, tradesOf_cons m op ops, List.append_assoc]

theorem comments_foldFrom (ops : List FoldOp) (s : marketStore) (m : String) :
    GoMap.index (foldFrom s ops).comments m =
      GoMap.index s.comments m ++ commentsOf m ops := by
  induction ops generalizing s with
  | nil => simp [foldFrom, commentsOf]
  | cons op ops ih =>
    rw [foldFrom_cons, ih, comments_apply, commentsOf_cons m op ops, List.append_assoc]

theorem danmaku_foldFrom (ops : List FoldOp) (s : marketStore) (m : String) :
    GoMap.index (foldFrom s ops).danmaku m =
      GoMap.index s.danmaku m ++ danmakuOf m ops := by
  induction ops generalizing s with
  | nil => simp [foldFrom, danmakuOf]
  | cons op ops ih =>
    rw [foldFrom_cons, ih, danmaku_apply, danmakuOf_cons m op ops, List.append_assoc]

theorem created_foldFrom (ops : List FoldOp) (s : marketStore) (m : String) :
    GoMap.get? (foldFrom s ops).created m =
      match (createdOf m ops).getLast? with
      | some e => some e
      | none => GoMap.get? s.created m := by
  induction ops generalizing s with
  | nil => simp [foldFrom, createdOf]
  | cons op ops ih =>
    rw [foldFrom_cons, ih, created_apply, createdOf_cons m op ops]
    cases h1 : createdOf m ops using List.reverseRecOn with
    | nil => simp
    | append_singleton l a _ => simp [← List.append_assoc]

theorem length_tradesOf (m : String) (ops : List FoldOp) :
    (tradesOf m ops).length = ops.countP (isTradeOf m) := by
  induction ops with
  | nil => simp [tradesOf]
  | cons op ops ih =>
    rw [tradesOf_cons, List.length_append, ih, List.countP_cons]
    cases op with
    | trade e => by_cases h : e.MarketId = m <;> simp [tradesOf, isTradeOf, h, Nat.add_comm]
    | _ => simp [tradesOf, isTradeOf]

theorem length_commentsOf (m : String) (ops : List FoldOp) :
    (commentsOf m ops).length = ops.countP (isCommentOf m) := by
  induction ops with
  | nil => simp [commentsOf]
  | cons op ops ih =>
    rw [commentsOf_cons, List.length_append, ih, List.countP_cons]
    cases op with
    | comment e =>
      by_cases h : e.MarketId = m <;> simp [commentsOf, isCommentOf, h, Nat.add_comm]
    | _ => simp [commentsOf, isCommentOf]

theorem length_danmakuOf (m : String) (ops : List FoldOp) :
    (danmakuOf m ops).length = ops.countP (isDanmakuOf m) := by
  induction ops with
  | nil => simp [danmakuOf]
  | cons op ops ih =>
    rw [danmakuOf_cons, List.length_append, ih, List.countP_cons]
    cases op with
    | danmaku e =>
      by_cases h : e.MarketId = m <;> simp [danmakuOf, isDanmakuOf, h, Nat.add_comm]
    | _ => simp [danmakuOf, isDanmakuOf]

theorem createdOf_eq_nil (m : String) (ops : List FoldOp)
    (h : ∀ e, FoldOp.marketCreated e ∈ ops → e.MarketId ≠ m) : createdOf m ops = [] := by
  induction ops with
  | nil => simp [createdOf]
  | cons op ops ih =>
    rw [createdOf_cons, ih (fun e he => h e (List.mem_cons_of_mem _ he))]
    cases op with
    | marketCreated e =>
      have := h e (List.mem_cons_self _ _)
      simp [createdOf, this]
    | _ => simp [createdOf]

/-! ## The claims on the store -/

/-- C1 (ordering law): after any finite sequence of fold operations applied in order to the
empty store, the snapshot of every market id `m` holds exactly the trade events of `m` in the
order they were folded, and likewise its comment and danmaku events; each length is the number
of operations of that kind for `m`. -/
theorem C1_snapshot_sequences_in_fold_order (ops : List FoldOp) (m : String) :
    ((foldAll ops).getSnapshot m).1.Trades = tradesOf m ops ∧
    ((foldAll ops).getSnapshot m).1.Comments = commentsOf m ops ∧
    ((foldAll ops).getSnapshot m).1.Danmaku = danmakuOf m ops ∧
    ((foldAll ops).getSnapshot m).1.Trades.length = ops.countP (isTradeOf m) ∧
    ((foldAll ops).getSnapshot m).1.Comments.length = ops.countP (isCommentOf m) ∧
    ((foldAll ops).getSnapshot m).1.Danmaku.length = ops.countP (isDanmakuOf m) := by
  have ht : ((foldAll ops).getSnapshot m).1.Trades = tradesOf m ops := by
    simp only [marketStore.getSnapshot, foldAll, List.nil_append]
    rw [trades_foldFrom]
    simp [newMarketStore, GoMap.index, GoMap.get?]
  have hc : ((foldAll ops).getSnapshot m).1.Comments = commentsOf m ops := by
    simp only [marketStore.getSnapshot, foldAll, List.nil_append]
    rw [comments_foldFrom]
    simp [newMarketStore, GoMap.index, GoMap.get?]
  have hd : ((foldAll ops).getSnapshot m).1.Danmaku = danmakuOf m ops := by
    simp only [marketStore.getSnapshot, foldAll, List.nil_append]
    rw [danmaku_foldFrom]
    simp [newMarketStore, GoMap.index, GoMap.get?]
  refine ⟨ht, hc, hd, ?_, ?_, ?_⟩
  · rw [ht, length_tradesOf]
  · rw [hc, length_commentsOf]
  · rw [hd, length_danmakuOf]

/-- C2 (last write wins): after any finite sequence of fold operations applied to the empty
store, the `Created` field of the snapshot of `m` is the last `MarketCreated` event of `m` in
the sequence; it is absent when the sequence has no such event; and after two `MarketCreated`
events with the same market id the snapshot holds the second. -/
theorem C2_created_is_last_write (ops : List FoldOp) (m : String) :
    ((foldAll ops).getSnapshot m).1.Created = (createdOf m ops).getLast? ∧
    ((∀ e, FoldOp.marketCreated e ∈ ops → e.MarketId ≠ m) →
      ((foldAll ops).getSnapshot m).1.Created = none) ∧
    (∀ c1 c2 : marketCreatedEvent, c1.MarketId = c2.MarketId →
      ((foldAll [.marketCreated c1, .marketCreated c2]).getSnapshot c2.MarketId).1.Created
        = some c2) := by
  have key : ∀ (l : List FoldOp) (k : String),
      ((foldAll l).getSnapshot k).1.Created = (createdOf k l).getLast? := by
    intro l k
    simp only [marketStore.getSnapshot, foldAll]
    rw [created_foldFrom]
    cases (createdOf k l).getLast? <;> simp [newMarketStore, GoMap.get?]
  refine ⟨key ops m, ?_, ?_⟩
  · intro h
    rw [key, createdOf_eq_nil m ops h]
    rfl
  · intro c1 c2 h
    rw [key]
    simp [createdOf, h]

/-- The scenario of C2 on two concrete events for market 1 with different questions. -/
theorem C2_created_is_last_write_witness :
    rainCreated.MarketId = snowCreated.MarketId ∧
    rainCreated.Question ≠ snowCreated.Question ∧
    ((foldAll [.marketCreated rainCreated, .marketCreated snowCreated]).getSnapshot
      snowCreated.MarketId).1.Created = some snowCreated :=
  ⟨rfl, by decide,
    (C2_created_is_last_write [] "1").2.2 rainCreated snowCreated rfl⟩

/-- C5 (scenario): for every `MarketCreated` event `c` and every trade `t` of the same market,
after `addMarketCreated c` then `addTrade t` on the empty store the snapshot of that market has
`Created` equal to `c`, `Trades` equal to `[t]` and no comment or danmaku; the snapshot of any
other market id has `Created` absent and three empty sequences. -/
theorem C5_created_then_trade (c : marketCreatedEvent) (t : tradeEvent) (other : String)
    (hsame : t.MarketId = c.MarketId) (hother : other ≠ c.MarketId) :
    (((newMarketStore.addMarketCreated c).addTrade t).getSnapshot c.MarketId).1 =
      { Created := some c, Comments := [], Danmaku := [], Trades := [t] } ∧
    (((newMarketStore.addMarketCreated c).addTrade t).getSnapshot other).1 =
      { Created := none, Comments := [], Danmaku := [], Trades := [] } ∧
    (((newMarketStore.addMarketCreated c).addTrade t).getSnapshot other).1.Trades.length = 0 ∧
    (((newMarketStore.addMarketCreated c).addTrade t).getSnapshot other).1.Comments.length = 0 ∧
    (((newMarketStore.addMarketCreated c).addTrade t).getSnapshot other).1.Danmaku.length = 0 := by
  have hne : c.MarketId ≠ other := fun h => hother h.symm
  have h1 : (((newMarketStore.addMarketCreated c).addTrade t).getSnapshot c.MarketId).1 =
      { Created := some c, Comments := [], Danmaku := [], Trades := [t] } := by
    simp [marketStore.getSnapshot, marketStore.addTrade, marketStore.addMarketCreated,
      newMarketStore, GoMap.set, GoMap.get?, GoMap.index, hsame]
  have h2 : (((newMarketStore.addMarketCreated c).addTrade t).getSnapshot other).1 =
      { Created := none, Comments := [], Danmaku := [], Trades := [] } := by
    simp [marketStore.getSnapshot, marketStore.addTrade, marketStore.addMarketCreated,
      newMarketStore, GoMap.set, GoMap.get?, GoMap.index, hsame, hne]
  refine ⟨h1, h2, ?_, ?_, ?_⟩ <;> rw [h2] <;> rfl

/-- The scenario of C5 on the events of the specification, queried at market 2. -/
theorem C5_created_then_trade_witness :
    rainBuy.MarketId = rainCreated.MarketId ∧ "2" ≠ rainCreated.MarketId ∧
    (((newMarketStore.addMarketCreated rainCreated).addTrade rainBuy).getSnapshot "1").1 =
      { Created := some rainCreated, Comments := [], Danmaku := [], Trades := [rainBuy] } ∧
    (((newMarketStore.addMarketCreated rainCreated).addTrade rainBuy).getSnapshot "2").1 =
      { Created := none, Comments := [], Danmaku := [], Trades := [] } :=
  ⟨rfl, by decide,
    (C5_created_then_trade rainCreated rainBuy "2" rfl (by decide)).1,
    (C5_created_then_trade rainCreated rainBuy "2" rfl (by decide)).2.1⟩

/-! ## The log handler -/

/-- Every outcome of `handleLog` on a log with a signature: the store is left as it was, or one
fold is made with the event built in the branch taken; the branch and the decoded values do
not depend on the clock reading. -/
theorem handleLog_cases (geth : Geth) (parsedABI : ABI) (vLog : Log) (store : marketStore)
    (topic0 : Hash) (topics : List Hash) (hT : vLog.Topics = topic0 :: topics) :
    (∀ now, handleLog geth now parsedABI vLog store = some store) ∨
    (∃ (indexed : List (String × TopicValue)) (data : marketCreatedData), ∀ now, handleLog geth now parsedABI vLog store =
      some (store.addMarketCreated
        { MarketId := bigIntString (fieldBigInt indexed "MarketId")
          Creator := geth.addressHex (fieldAddress indexed "Creator")
          Question := data.Question
          EndTime := bigIntString (some data.EndTime)
          InitialYesPred := bigIntString (some data.InitialYesPred)
          InitialNoPred := bigIntString (some data.InitialNoPred)
          TxHash := geth.hashHex vLog.TxHash
          BlockNumber := vLog.BlockNumber
          Timestamp := formatTime now })) ∨
    (∃ (indexed : List (String × TopicValue)) (data : sharesBoughtData), ∀ now, handleLog geth now parsedABI vLog store =
      some (store.addTrade
        { Type_ := "buy"
          MarketId := bigIntString (fieldBigInt indexed "MarketId")
          User := geth.addressHex (fieldAddress indexed "User")
          IsYes := data.IsYes
          PredIn := bigIntString (some data.PredIn)
          SharesOut := bigIntString (some data.SharesOut)
          TxHash := geth.hashHex vLog.TxHash
          BlockNumber := vLog.BlockNumber
          Timestamp := formatTime now })) ∨
    (∃ (indexed : List (String × TopicValue)) (data : sharesSoldData), ∀ now, handleLog geth now parsedABI vLog store =
      some (store.addTrade
        { Type_ := "sell"
          MarketId := bigIntString (fieldBigInt indexed "MarketId")
          User := geth.addressHex (fieldAddress indexed "User")
          IsYes := data.IsYes
          SharesIn := bigIntString (some data.SharesIn)
          PredOut := bigIntString (some data.PredOut)
          TxHash := geth.hashHex vLog.TxHash
          BlockNumber := vLog.BlockNumber
          Timestamp := formatTime now })) ∨
    (∃ (indexed : List (String × TopicValue)) (data : commentData), ∀ now, handleLog geth now parsedABI vLog store =
      some (store.addComment
        { MarketId := bigIntString (fieldBigInt indexed "MarketId")
          User := geth.addressHex (fieldAddress indexed "User")
          Content := data.Content
          TxHash := geth.hashHex vLog.TxHash
          BlockNumber := vLog.BlockNumber
          Timestamp := formatTime now })) ∨
    (∃ (indexed : List (String × TopicValue)) (data : commentData), ∀ now, handleLog geth now parsedABI vLog store =
      some (store.addDanmaku
        { MarketId := bigIntString (fieldBigInt indexed "MarketId")
          User := geth.addressHex (fieldAddress indexed "User")
          Content := data.Content
          TxHash := geth.hashHex vLog.TxHash
          BlockNumber := vLog.BlockNumber
          Timestamp := formatTime now })) := by
  by_cases h1 : topic0 = (parsedABI.event "MarketCreated").ID
  · subst h1
    cases hP : ParseTopics (indexedArgs (parsedABI.event "MarketCreated").Inputs) topics with
    | error e => exact Or.inl fun now => by simp [handleLog, hT, hP]
    | ok indexed =>
      cases hU : geth.unpackMarketCreated parsedABI "MarketCreated" vLog.Data with
      | error e => exact Or.inl fun now => by simp [handleLog, hT, hP, hU]
      | ok data =>
        exact Or.inr (Or.inl ⟨indexed, data, fun now => by simp [handleLog, hT, hP, hU]⟩)
  by_cases h2 : topic0 = (parsedABI.event "SharesBought").ID
  · subst h2
    cases hP : ParseTopics (indexedArgs (parsedABI.event "SharesBought").Inputs) topics with
    | error e => exact Or.inl fun now => by simp [handleLog, hT, h1, hP]
    | ok indexed =>
      cases hU : geth.unpackSharesBought parsedABI "SharesBought" vLog.Data with
      | error e => exact Or.inl fun now => by simp [handleLog, hT, h1, hP, hU]
      | ok data =>
        exact Or.inr (Or.inr (Or.inl
          ⟨indexed, data, fun now => by simp [handleLog, hT, h1, hP, hU]⟩))
  by_cases h3 : topic0 = (parsedABI.event "SharesSold").ID
  · subst h3
    cases hP : ParseTopics (indexedArgs (parsedABI.event "SharesSold").Inputs) topics with
    | error e => exact Or.inl fun now => by simp [handleLog, hT, h1, h2, hP]
    | ok indexed =>
      cases hU : geth.unpackSharesSold parsedABI "SharesSold" vLog.Data with
      | error e => exact Or.inl fun now => by simp [handleLog, hT, h1, h2, hP, hU]
      | ok data =>
        exact Or.inr (Or.inr (Or.inr (Or.inl
          ⟨indexed, data, fun now => by simp [handleLog, hT, h1, h2, hP, hU]⟩)))
  by_cases h4 : topic0 = (parsedABI.event "Comment").ID
  · subst h4
    cases hP : ParseTopics (indexedArgs (parsedABI.event "Comment").Inputs) topics with
    | error e => exact Or.inl fun now => by simp [handleLog, hT, h1, h2, h3, hP]
    | ok indexed =>
      cases hU : geth.unpackComment parsedABI "Comment" vLog.Data with
      | error e => exact Or.inl fun now => by simp [handleLog, hT, h1, h2, h3, hP, hU]
      | ok data =>
        exact Or.inr (Or.inr (Or.inr (Or.inr (Or.inl
          ⟨indexed, data, fun now => by simp [handleLog, hT, h1, h2, h3, hP, hU]⟩))))
  by_cases h5 : topic0 = (parsedABI.event "Danmaku").ID
  · subst h5
    cases hP : ParseTopics (indexedArgs (parsedABI.event "Danmaku").Inputs) topics with
    | error e => exact Or.inl fun now => by simp [handleLog, hT, h1, h2, h3, h4, hP]
    | ok indexed =>
      cases hU : geth.unpackComment parsedABI "Danmaku" vLog.Data with
      | error e =>
        exact Or.inl fun now => by simp [handleLog, hT, h1, h2, h3, h4, hP, hU]
      | ok data =>
        exact Or.inr (Or.inr (Or.inr (Or.inr (Or.inr
          ⟨indexed, data, fun now => by simp [handleLog, hT, h1, h2, h3, h4, hP, hU]⟩))))
  exact Or.inl fun now => by simp [handleLog, hT, h1, h2, h3, h4, h5]

/-- C3 (no-op on unknown): for every store and every log with at least one topic whose first
topic is the ID of none of the five registered events, `handleLog` returns normally and the
store after the call is the store before it, so its four maps are unchanged. -/
theorem C3_unknown_signature_is_noop (geth : Geth) (now : Time) (parsedABI : ABI) (vLog : Log)
    (store : marketStore) (topic0 : Hash) (topics : List Hash)
    (hT : vLog.Topics = topic0 :: topics)
    (hunknown : ∀ name ∈ eventNames, topic0 ≠ (parsedABI.event name).ID) :
    handleLog geth now parsedABI vLog store = some store ∧
    ∀ s, handleLog geth now parsedABI vLog store = some s →
      s.created = store.created ∧ s.comments = store.comments ∧
      s.danmaku = store.danmaku ∧ s.trades = store.trades := by
  have h : handleLog geth now parsedABI vLog store = some store := by
    simp only [eventNames, List.mem_cons, List.mem_singleton, List.not_mem_nil, or_false,
      forall_eq_or_imp, forall_eq] at hunknown
    obtain ⟨h1, h2, h3, h4, h5⟩ := hunknown
    simp [handleLog, hT, h1, h2, h3, h4, h5]
  refine ⟨h, fun s hs => ?_⟩
  rw [h] at hs
  cases hs
  exact ⟨rfl, rfl, rfl, rfl⟩

/-- C3 on a log with signature 999, which is none of the sample IDs, and the scenario store. -/
theorem C3_unknown_signature_is_noop_witness :
    handleLog sampleGeth clockA sampleABI unknownLog rainStore = some rainStore :=
  (C3_unknown_signature_is_noop sampleGeth clockA sampleABI unknownLog rainStore 999 [1, 0xdef]
    rfl (by decide)).1

theorem ParseTopics_length_ne (fields : List Argument) (topics : List Hash)
    (h : fields.length ≠ topics.length) : parseTopicsFails fields topics = true := by
  simp [parseTopicsFails, ParseTopics, h]

theorem indexedArgs_length_two (id : String → Hash) (name : String) (h : name ∈ eventNames) :
    (indexedArgs ((predictionMarketABI id).event name).Inputs).length = 2 := by
  simp only [eventNames, List.mem_cons, List.mem_singleton, List.not_mem_nil, or_false] at h
  rcases h with h | h | h | h | h <;> subst h <;> rfl

theorem event_ID (id : String → Hash) (name : String) (h : name ∈ eventNames) :
    ((predictionMarketABI id).event name).ID = id name := by
  simp only [eventNames, List.mem_cons, List.mem_singleton, List.not_mem_nil, or_false] at h
  rcases h with h | h | h | h | h <;> subst h <;> rfl

/-- A log of a registered event whose topics or payload fail to decode leaves the store as
it was, for any ABI whose five event IDs are pairwise distinct. -/
theorem handleLog_dropped (geth : Geth) (now : Time) (parsedABI : ABI) (vLog : Log)
    (store : marketStore) (topic0 : Hash) (topics : List Hash) (name : String)
    (hdist : (eventNames.map fun n => (parsedABI.event n).ID).Nodup)
    (hT : vLog.Topics = topic0 :: topics) (hname : name ∈ eventNames)
    (hsig : topic0 = (parsedABI.event name).ID)
    (hfail : parseTopicsFails (indexedArgs (parsedABI.event name).Inputs) topics = true ∨
      unpackFails geth parsedABI name vLog.Data = true) :
    handleLog geth now parsedABI vLog store = some store := by
  simp only [eventNames, List.map_cons, List.map_nil, List.nodup_cons, List.mem_cons,
    List.mem_singleton, List.not_mem_nil, or_false, not_or, List.nodup_nil, and_true]
    at hdist
  obtain ⟨⟨h12, h13, h14, h15⟩, ⟨h23, h24, h25⟩, ⟨h34, h35⟩, h45, -⟩ := hdist
  simp only [eventNames, List.mem_cons, List.mem_singleton, List.not_mem_nil, or_false]
    at hname
  subst hsig
  rcases hname with h | h | h | h | h <;> subst h
  · cases hP : ParseTopics (indexedArgs (parsedABI.event "MarketCreated").Inputs) topics with
    | error e => simp [handleLog, hT, hP]
    | ok indexed =>
      cases hU : geth.unpackMarketCreated parsedABI "MarketCreated" vLog.Data with
      | error e => simp [handleLog, hT, hP, hU]
      | ok data => simp [parseTopicsFails, unpackFails, hP, hU] at hfail
  · cases hP : ParseTopics (indexedArgs (parsedABI.event "SharesBought").Inputs) topics with
    | error e => simp [handleLog, hT, hP, Ne.symm h12]
    | ok indexed =>
      cases hU : geth.unpackSharesBought parsedABI "SharesBought" vLog.Data with
      | error e => simp [handleLog, hT, hP, hU, Ne.symm h12]
      | ok data => simp [parseTopicsFails, unpackFails, hP, hU] at hfail
  · cases hP : ParseTopics (indexedArgs (parsedABI.event "SharesSold").Inputs) topics with
    | error e => simp [handleLog, hT, hP, Ne.symm h13, Ne.symm h23]
    | ok indexed =>
      cases hU : geth.unpackSharesSold parsedABI "SharesSold" vLog.Data with
      | error e => simp [handleLog, hT, hP, hU, Ne.symm h13, Ne.symm h23]
      | ok data => simp [parseTopicsFails, unpackFails, hP, hU] at hfail
  · cases hP : ParseTopics (indexedArgs (parsedABI.event "Comment").Inputs) topics with
    | error e => simp [handleLog, hT, hP, Ne.symm h14, Ne.symm h24, Ne.symm h34]
    | ok indexed =>
      cases hU : geth.unpackComment parsedABI "Comment" vLog.Data with
      | error e => simp [handleLog, hT, hP, hU, Ne.symm h14, Ne.symm h24, Ne.symm h34]
      | ok data => simp [parseTopicsFails, unpackFails, hP, hU] at hfail
  · cases hP : ParseTopics (indexedArgs (parsedABI.event "Danmaku").Inputs) topics with
    | error e =>
      simp [handleLog, hT, hP, Ne.symm h15, Ne.symm h25, Ne.symm h35, Ne.symm h45]
    | ok indexed =>
      cases hU : geth.unpackComment parsedABI "Danmaku" vLog.Data with
      | error e =>
        simp [handleLog, hT, hP, hU, Ne.symm h15, Ne.symm h25, Ne.symm h35, Ne.symm h45]
      | ok data => simp [parseTopicsFails, unpackFails, hP, hU] at hfail

/-- C4 (malformed record of a recognised event): for every store and every log whose signature
is the ID of one of the five registered events, the IDs being pairwise distinct, if the number
of topics after the signature is not two, or `ParseTopics` fails otherwise, or unpacking the
payload fails, then `handleLog` makes no fold: the store after the call is the store before
it, so the snapshot of every market is unchanged. -/
theorem C4_malformed_record_is_dropped (geth : Geth) (now : Time) (id : String → Hash)
    (vLog : Log) (store : marketStore) (topic0 : Hash) (topics : List Hash) (name : String)
    (hdist : (eventNames.map id).Nodup)
    (hT : vLog.Topics = topic0 :: topics) (hname : name ∈ eventNames)
    (hsig : topic0 = ((predictionMarketABI id).event name).ID)
    (hfail : topics.length ≠ 2 ∨
      parseTopicsFails (indexedArgs ((predictionMarketABI id).event name).Inputs) topics = true ∨
      unpackFails geth (predictionMarketABI id) name vLog.Data = true) :
    handleLog geth now (predictionMarketABI id) vLog store = some store ∧
    ∀ s, handleLog geth now (predictionMarketABI id) vLog store = some s →
      ∀ m, (s.getSnapshot m).1 = (store.getSnapshot m).1 := by
  have hd : (eventNames.map fun n => ((predictionMarketABI id).event n).ID).Nodup := by
    have : (eventNames.map fun n => ((predictionMarketABI id).event n).ID) = eventNames.map id :=
      List.map_congr_left fun n hn => event_ID id n hn
    rw [this]
    exact hdist
  have hf : parseTopicsFails (indexedArgs ((predictionMarketABI id).event name).Inputs) topics
      = true ∨ unpackFails geth (predictionMarketABI id) name vLog.Data = true := by
    rcases hfail with h | h | h
    · left
      apply ParseTopics_length_ne
      rw [indexedArgs_length_two id name hname]
      exact fun h2 => h h2.symm
    · exact Or.inl h
    · exact Or.inr h
  have h := handleLog_dropped geth now (predictionMarketABI id) vLog store topic0 topics name
    hd hT hname hsig hf
  refine ⟨h, fun s hs m => ?_⟩
  rw [h] at hs
  cases hs
  rfl

/-- C4 on a `SharesBought` log with a single topic after the signature, and on one whose
payload is a word short. -/
theorem C4_malformed_record_is_dropped_witness :
    handleLog sampleGeth clockA sampleABI shortTopicsLog rainStore = some rainStore ∧
    handleLog sampleGeth clockA sampleABI shortDataLog rainStore = some rainStore :=
  ⟨(C4_malformed_record_is_dropped sampleGeth clockA sampleID shortTopicsLog rainStore 102 [1]
      "SharesBought" (by decide) rfl (by decide) rfl (Or.inl (by decide))).1,
   (C4_malformed_record_is_dropped sampleGeth clockA sampleID shortDataLog rainStore 102
      [1, 0xdef] "SharesBought" (by decide) rfl (by decide) rfl (Or.inr (Or.inr rfl))).1⟩

theorem toDigitsCore_ne_nil (base fuel n : Nat) (ds : List Char) (h : ds ≠ []) :
    Nat.toDigitsCore base fuel n ds ≠ [] := by
  induction fuel generalizing n ds with
  | zero => simpa [Nat.toDigitsCore] using h
  | succ fuel ih =>
    simp only [Nat.toDigitsCore]
    split
    · simp
    · exact ih _ _ (by simp)

theorem toDigits_ne_nil (base n : Nat) : Nat.toDigits base n ≠ [] := by
  simp only [Nat.toDigits, Nat.toDigitsCore]
  split
  · simp
  · exact toDigitsCore_ne_nil _ _ _ _ (by simp)

theorem toString_int_ne_empty (v : Int) : toString v ≠ "" := by
  cases v with
  | ofNat m =>
    intro h
    have h2 : (Nat.toDigits 10 m) = [] := congrArg String.data h
    exact toDigits_ne_nil 10 m h2
  | negSucc m =>
    intro h
    have h2 : ('-' :: (Nat.toDigits 10 (m + 1))) = [] := congrArg String.data h
    exact List.cons_ne_nil _ _ h2

/-- C8 (direction-specific amounts): on a log with a signature, when the `SharesBought` branch
is taken and both decoding steps succeed, `handleLog` appends a trade of type `buy` whose
`PredIn` and `SharesOut` are the non-empty decimal strings of the payload integers and whose
`SharesIn` and `PredOut` are empty; when the `SharesSold` branch is taken and both steps
succeed, it appends a trade of type `sell` with `SharesIn` and `PredOut` set to non-empty
decimal strings and `PredIn` and `SharesOut` empty; and whenever `handleLog` changes the
`trades` map, it does so by appending one trade of one of these two shapes, so no trade it
produces carries both pairs. -/
theorem C8_trade_amounts_by_direction (geth : Geth) (now : Time) (parsedABI : ABI) (vLog : Log)
    (store : marketStore) (topic0 : Hash) (topics : List Hash)
    (hT : vLog.Topics = topic0 :: topics) :
    (∀ (indexed : List (String × TopicValue)) (data : sharesBoughtData),
      topic0 ≠ (parsedABI.event "MarketCreated").ID →
      topic0 = (parsedABI.event "SharesBought").ID →
      ParseTopics (indexedArgs (parsedABI.event "SharesBought").Inputs) topics = .ok indexed →
      geth.unpackSharesBought parsedABI "SharesBought" vLog.Data = .ok data →
      handleLog geth now parsedABI vLog store = some (store.addTrade
        { Type_ := "buy"
          MarketId := bigIntString (fieldBigInt indexed "MarketId")
          User := geth.addressHex (fieldAddress indexed "User")
          IsYes := data.IsYes
          PredIn := toString data.PredIn
          SharesOut := toString data.SharesOut
          SharesIn := ""
          PredOut := ""
          TxHash := geth.hashHex vLog.TxHash
          BlockNumber := vLog.BlockNumber
          Timestamp := formatTime now }) ∧
      toString data.PredIn ≠ "" ∧ toString data.SharesOut ≠ "") ∧
    (∀ (indexed : List (String × TopicValue)) (data : sharesSoldData),
      topic0 ≠ (parsedABI.event "MarketCreated").ID →
      topic0 ≠ (parsedABI.event "SharesBought").ID →
      topic0 = (parsedABI.event "SharesSold").ID →
      ParseTopics (indexedArgs (parsedABI.event "SharesSold").Inputs) topics = .ok indexed →
      geth.unpackSharesSold parsedABI "SharesSold" vLog.Data = .ok data →
      handleLog geth now parsedABI vLog store = some (store.addTrade
        { Type_ := "sell"
          MarketId := bigIntString (fieldBigInt indexed "MarketId")
          User := geth.addressHex (fieldAddress indexed "User")
          IsYes := data.IsYes
          PredIn := ""
          SharesOut := ""
          SharesIn := toString data.SharesIn
          PredOut := toString data.PredOut
          TxHash := geth.hashHex vLog.TxHash
          BlockNumber := vLog.BlockNumber
          Timestamp := formatTime now }) ∧
      toString data.SharesIn ≠ "" ∧ toString data.PredOut ≠ "") ∧
    (∀ s, handleLog geth now parsedABI vLog store = some s → s.trades ≠ store.trades →
      ∃ t, s = store.addTrade t ∧
        ((t.Type_ = "buy" ∧ t.PredIn ≠ "" ∧ t.SharesOut ≠ "" ∧ t.SharesIn = "" ∧ t.PredOut = "") ∨
         (t.Type_ = "sell" ∧ t.SharesIn ≠ "" ∧ t.PredOut ≠ "" ∧ t.PredIn = "" ∧
           t.SharesOut = ""))) := by
  refine ⟨?_, ?_, ?_⟩
  · intro indexed data h1 h2 hP hU
    refine ⟨?_, toString_int_ne_empty _, toString_int_ne_empty _⟩
    subst h2
    simp [handleLog, hT, h1, hP, hU, bigIntString]
  · intro indexed data h1 h2 h3 hP hU
    refine ⟨?_, toString_int_ne_empty _, toString_int_ne_empty _⟩
    subst h3
    simp [handleLog, hT, h1, h2, hP, hU, bigIntString]
  · intro s hs hne
    rcases handleLog_cases geth parsedABI vLog store topic0 topics hT with
      h | ⟨i, d, h⟩ | ⟨i, d, h⟩ | ⟨i, d, h⟩ | ⟨i, d, h⟩ | ⟨i, d, h⟩
    all_goals
      have h0 := h now
      rw [hs] at h0
      cases h0
    · exact absurd rfl hne
    · exact absurd rfl hne
    · exact ⟨_, rfl, Or.inl ⟨rfl, toString_int_ne_empty _, toString_int_ne_empty _, rfl, rfl⟩⟩
    · exact ⟨_, rfl, Or.inr ⟨rfl, toString_int_ne_empty _, toString_int_ne_empty _, rfl, rfl⟩⟩
    · exact absurd rfl hne
    · exact absurd rfl hne

/-- C8 on the sample buy log and the sample sell log, folded into the empty store. -/
theorem C8_trade_amounts_by_direction_witness :
    handleLog sampleGeth clockA sampleABI buyLog newMarketStore = some (newMarketStore.addTrade
      { Type_ := "buy", MarketId := "1", User := "0x0000000000000000000000000000000000000def",
        IsYes := true, PredIn := "10", SharesOut := "9", SharesIn := "", PredOut := "",
        TxHash := "0x0000000000000000000000000000000000000000000000000000000000000002",
        BlockNumber := 8, Timestamp := "2024-05-06 07:08:09" }) ∧
    handleLog sampleGeth clockA sampleABI sellLog newMarketStore = some (newMarketStore.addTrade
      { Type_ := "sell", MarketId := "1", User := "0x0000000000000000000000000000000000000def",
        IsYes := false, PredIn := "", SharesOut := "", SharesIn := "4", PredOut := "3",
        TxHash := "0x0000000000000000000000000000000000000000000000000000000000000005",
        BlockNumber := 9, Timestamp := "2024-05-06 07:08:09" }) :=
  ⟨((C8_trade_amounts_by_direction sampleGeth clockA sampleABI buyLog newMarketStore 102
      [1, 0xdef] rfl).1 [("MarketId", .bigInt 1), ("User", .address 0xdef)]
      { IsYes := true, PredIn := 10, SharesOut := 9 } (by decide) rfl rfl rfl).1,
   ((C8_trade_amounts_by_direction sampleGeth clockA sampleABI sellLog newMarketStore 103
      [1, 0xdef] rfl).2.1 [("MarketId", .bigInt 1), ("User", .address 0xdef)]
      { IsYes := false, SharesIn := 4, PredOut := 3 } (by decide) (by decide) rfl rfl
      rfl).1⟩

/-- C6, refuted as stated: the sample buy log decoded at two clock readings one second apart
yields two trades with different `Timestamp` fields, hence two different stores. -/
theorem C6_counterexample_timestamp_differs :
    ((handleLog sampleGeth clockA sampleABI buyLog newMarketStore).map fun s =>
        (s.getSnapshot "1").1.Trades.map fun t => t.Timestamp) = some ["2024-05-06 07:08:09"] ∧
    ((handleLog sampleGeth clockB sampleABI buyLog newMarketStore).map fun s =>
        (s.getSnapshot "1").1.Trades.map fun t => t.Timestamp) = some ["2024-05-06 07:08:10"] ∧
    handleLog sampleGeth clockA sampleABI buyLog newMarketStore ≠
      handleLog sampleGeth clockB sampleABI buyLog newMarketStore := by
  decide

/-- C6, amended: two decodings of one log, at the clock readings `now1` and `now2`, on the
same store either both panic (no topic), or both leave the store as it was, or make the same
fold of events that agree on every field other than `Timestamp`, which is the formatted clock
reading of each decoding; when the two formatted readings are equal the results are equal. -/
theorem C6_events_agree_up_to_timestamp (geth : Geth) (parsedABI : ABI) (vLog : Log)
    (store : marketStore) (now1 now2 : Time) :
    ((handleLog geth now1 parsedABI vLog store = none ∧
        handleLog geth now2 parsedABI vLog store = none) ∨
      (handleLog geth now1 parsedABI vLog store = some store ∧
        handleLog geth now2 parsedABI vLog store = some store) ∨
      ∃ op : FoldOp,
        handleLog geth now1 parsedABI vLog store =
          some (FoldOp.apply store (op.withTimestamp (formatTime now1))) ∧
        handleLog geth now2 parsedABI vLog store =
          some (FoldOp.apply store (op.withTimestamp (formatTime now2)))) ∧
    (formatTime now1 = formatTime now2 →
      handleLog geth now1 parsedABI vLog store = handleLog geth now2 parsedABI vLog store) := by
  cases hT : vLog.Topics with
  | nil =>
    have h : ∀ now, handleLog geth now parsedABI vLog store = none := fun now => by
      simp [handleLog, hT]
    exact ⟨Or.inl ⟨h _, h _⟩, fun _ => by rw [h, h]⟩
  | cons topic0 topics =>
    rcases handleLog_cases geth parsedABI vLog store topic0 topics hT with
      h | ⟨i, d, h⟩ | ⟨i, d, h⟩ | ⟨i, d, h⟩ | ⟨i, d, h⟩ | ⟨i, d, h⟩
    · exact ⟨Or.inr (Or.inl ⟨h _, h _⟩), fun _ => by rw [h, h]⟩
    · refine ⟨Or.inr (Or.inr ⟨.marketCreated
        { MarketId := bigIntString (fieldBigInt i "MarketId")
          Creator := geth.addressHex (fieldAddress i "Creator")
          Question := d.Question
          EndTime := bigIntString (some d.EndTime)
          InitialYesPred := bigIntString (some d.InitialYesPred)
          InitialNoPred := bigIntString (some d.InitialNoPred)
          TxHash := geth.hashHex vLog.TxHash
          BlockNumber := vLog.BlockNumber
          Timestamp := "" }, h now1, h now2⟩), fun heq => by rw [h, h, heq]⟩
    · refine ⟨Or.inr (Or.inr ⟨.trade
        { Type_ := "buy"
          MarketId := bigIntString (fieldBigInt i "MarketId")
          User := geth.addressHex (fieldAddress i "User")
          IsYes := d.IsYes
          PredIn := bigIntString (some d.PredIn)
          SharesOut := bigIntString (some d.SharesOut)
          TxHash := geth.hashHex vLog.TxHash
          BlockNumber := vLog.BlockNumber
          Timestamp := "" }, h now1, h now2⟩), fun heq => by rw [h, h, heq]⟩
    · refine ⟨Or.inr (Or.inr ⟨.trade
        { Type_ := "sell"
          MarketId := bigIntString (fieldBigInt i "MarketId")
          User := geth.addressHex (fieldAddress i "User")
          IsYes := d.IsYes
          SharesIn := bigIntString (some d.SharesIn)
          PredOut := bigIntString (some d.PredOut)
          TxHash := geth.hashHex vLog.TxHash
          BlockNumber := vLog.BlockNumber
          Timestamp := "" }, h now1, h now2⟩), fun heq => by rw [h, h, heq]⟩
    · refine ⟨Or.inr (Or.inr ⟨.comment
        { MarketId := bigIntString (fieldBigInt i "MarketId")
          User := geth.addressHex (fieldAddress i "User")
          Content := d.Content
          TxHash := geth.hashHex vLog.TxHash
          BlockNumber := vLog.BlockNumber
          Timestamp := "" }, h now1, h now2⟩), fun heq => by rw [h, h, heq]⟩
    · refine ⟨Or.inr (Or.inr ⟨.danmaku
        { MarketId := bigIntString (fieldBigInt i "MarketId")
          User := geth.addressHex (fieldAddress i "User")
          Content := d.Content
          TxHash := geth.hashHex vLog.TxHash
          BlockNumber := vLog.BlockNumber
          Timestamp := "" }, h now1, h now2⟩), fun heq => by rw [h, h, heq]⟩

/-- C6 amended, on the sample buy log decoded twice at the same clock reading. -/
theorem C6_events_agree_up_to_timestamp_witness :
    formatTime clockA = formatTime clockA ∧
    handleLog sampleGeth clockA sampleABI buyLog newMarketStore =
      handleLog sampleGeth clockA sampleABI buyLog newMarketStore :=
  ⟨rfl, (C6_events_agree_up_to_timestamp sampleGeth sampleABI buyLog newMarketStore clockA
    clockA).2 rfl⟩

/-! ## The list of created markets -/

theorem GoMap.mem_keys_set {V : Type} (m : GoMap V) (k k1 : String) (v : V) :
    k1 ∈ (GoMap.set m k v).map Prod.fst ↔ k1 = k ∨ k1 ∈ m.map Prod.fst := by
  induction m with
  | nil => simp [GoMap.set]
  | cons hd tl ih =>
    obtain ⟨k0, v0⟩ := hd
    by_cases h : k0 = k
    · subst h
      simp [GoMap.set]
    · simp only [GoMap.set, h, if_false, List.map_cons, List.mem_cons, ih]
      tauto

theorem GoMap.nodup_keys_set {V : Type} (m : GoMap V) (k : String) (v : V)
    (h : (m.map Prod.fst).Nodup) : ((GoMap.set m k v).map Prod.fst).Nodup := by
  induction m with
  | nil => simp [GoMap.set]
  | cons hd tl ih =>
    obtain ⟨k0, v0⟩ := hd
    simp only [List.map_cons, List.nodup_cons] at h
    by_cases h0 : k0 = k
    · subst h0
      simpa [GoMap.set] using h
    · simp only [GoMap.set, h0, if_false, List.map_cons, List.nodup_cons]
      refine ⟨?_, ih h.2⟩
      rw [GoMap.mem_keys_set]
      rintro (h1 | h1)
      · exact h0 h1
      · exact h.1 h1

theorem GoMap.mem_set {V : Type} (m : GoMap V) (k : String) (v : V) (p : String × V)
    (h : p ∈ GoMap.set m k v) : p = (k, v) ∨ p ∈ m := by
  induction m with
  | nil => simpa [GoMap.set] using h
  | cons hd tl ih =>
    obtain ⟨k0, v0⟩ := hd
    by_cases h0 : k0 = k
    · simp only [GoMap.set, h0, if_true, List.mem_cons] at h
      rcases h with h | h
      · exact Or.inl h
      · exact Or.inr (List.mem_cons_of_mem _ h)
    · simp only [GoMap.set, h0, if_false, List.mem_cons] at h
      rcases h with h | h
      · exact Or.inr (h ▸ List.mem_cons_self _ _)
      · rcases ih h with h1 | h1
        · exact Or.inl h1
        · exact Or.inr (List.mem_cons_of_mem _ h1)

theorem GoMap.mem_iff_get? {V : Type} (m : GoMap V) (k : String) (v : V)
    (h : (m.map Prod.fst).Nodup) : (k, v) ∈ m ↔ GoMap.get? m k = some v := by
  induction m with
  | nil => simp [GoMap.get?]
  | cons hd tl ih =>
    obtain ⟨k0, v0⟩ := hd
    simp only [List.map_cons, List.nodup_cons] at h
    by_cases h0 : k0 = k
    · subst h0
      simp only [GoMap.get?, if_true, List.mem_cons, Prod.mk.injEq, true_and, Option.some.injEq]
      constructor
      · rintro (h1 | h1)
        · exact h1.symm
        · exact absurd (List.mem_map_of_mem Prod.fst h1) h.1
      · intro h1
        exact Or.inl h1.symm
    · simp only [GoMap.get?, h0, if_false, List.mem_cons, Prod.mk.injEq, ← ih h.2]
      constructor
      · rintro (h1 | h1)
        · exact absurd h1.1.symm h0
        · exact h1
      · exact Or.inr

theorem listCreated_eq_map (s : marketStore) :
    (s.listCreated).1 = s.created.map Prod.snd := by
  have key : ∀ (l : GoMap marketCreatedEvent) (acc : List marketCreatedEvent),
      l.foldl (fun out entry => out ++ [entry.2]) acc = acc ++ l.map Prod.snd := by
    intro l
    induction l with
    | nil => simp
    | cons hd tl ih => intro acc; simp [ih]
  simp [marketStore.listCreated, key]

theorem createdWellFormed_apply (s : marketStore) (op : FoldOp)
    (h : createdWellFormed s.created) : createdWellFormed (FoldOp.apply s op).created := by
  cases op with
  | marketCreated e =>
    refine ⟨GoMap.nodup_keys_set _ _ _ h.1, fun p hp => ?_⟩
    rcases GoMap.mem_set _ _ _ _ hp with h1 | h1
    · rw [h1]
    · exact h.2 p h1
  | trade e => exact h
  | comment e => exact h
  | danmaku e => exact h

theorem createdWellFormed_foldFrom (ops : List FoldOp) (s : marketStore)
    (h : createdWellFormed s.created) : createdWellFormed (foldFrom s ops).created := by
  induction ops generalizing s with
  | nil => exact h
  | cons op ops ih => exact ih _ (createdWellFormed_apply s op h)

theorem mem_keys_foldFrom (ops : List FoldOp) (s : marketStore) (k : String) :
    k ∈ (foldFrom s ops).created.map Prod.fst ↔
      k ∈ s.created.map Prod.fst ∨ k ∈ createdIds ops := by
  induction ops generalizing s with
  | nil => simp [foldFrom, createdIds]
  | cons op ops ih =>
    rw [foldFrom_cons, ih]
    cases op with
    | marketCreated e =>
      simp only [FoldOp.apply, marketStore.addMarketCreated, GoMap.mem_keys_set, createdIds,
        List.filterMap_cons, List.mem_cons]
      tauto
    | trade e => simp [FoldOp.apply, marketStore.addTrade, createdIds, List.filterMap_cons]
    | comment e => simp [FoldOp.apply, marketStore.addComment, createdIds, List.filterMap_cons]
    | danmaku e => simp [FoldOp.apply, marketStore.addDanmaku, createdIds, List.filterMap_cons]

/-- C9 (list of created markets): for every store reached from the empty store by fold
operations and every order `out` in which the range over the `created` map may deliver its
values, `out` has as many entries as there are distinct market ids among the folded
`MarketCreated` events, an event occurs in `out` exactly once when it is the `Created` field of
the snapshot of its own market id and does not occur otherwise, and the store after
`listCreated` is the store before it. -/
theorem C9_listCreated_is_current_created (ops : List FoldOp) (out : List marketCreatedEvent)
    (hperm : out.Perm ((foldAll ops).listCreated).1) :
    out.length = (createdIds ops).dedup.length ∧
    (∀ e, e ∈ out ↔ ((foldAll ops).getSnapshot e.MarketId).1.Created = some e) ∧
    (∀ e, out.count e =
      if ((foldAll ops).getSnapshot e.MarketId).1.Created = some e then 1 else 0) ∧
    ((foldAll ops).listCreated).2 = foldAll ops := by
  have hwf : createdWellFormed (foldAll ops).created :=
    createdWellFormed_foldFrom ops newMarketStore ⟨by simp [newMarketStore], by
      simp [newMarketStore]⟩
  rw [listCreated_eq_map] at hperm
  have hkeys : ((foldAll ops).created.map Prod.snd).map marketCreatedEvent.MarketId =
      (foldAll ops).created.map Prod.fst := by
    rw [List.map_map]
    exact List.map_congr_left fun p hp => hwf.2 p hp
  have hnd : ((foldAll ops).created.map Prod.snd).Nodup := by
    apply List.Nodup.of_map marketCreatedEvent.MarketId
    rw [hkeys]
    exact hwf.1
  have hmem : ∀ e, e ∈ out ↔ ((foldAll ops).getSnapshot e.MarketId).1.Created = some e := by
    intro e
    rw [hperm.mem_iff]
    have hsnap : ((foldAll ops).getSnapshot e.MarketId).1.Created =
        GoMap.get? (foldAll ops).created e.MarketId := by
      simp only [marketStore.getSnapshot]
      cases GoMap.get? (foldAll ops).created e.MarketId <;> rfl
    rw [hsnap, ← GoMap.mem_iff_get? _ _ _ hwf.1]
    constructor
    · intro h
      obtain ⟨p, hp, hpe⟩ := List.mem_map.mp h
      have := hwf.2 p hp
      rw [hpe] at this
      rw [this, ← hpe]
      exact hp
    · intro h
      exact List.mem_map.mpr ⟨_, h, rfl⟩
  refine ⟨?_, hmem, ?_, rfl⟩
  · rw [hperm.length_eq, List.length_map, ← List.length_map (foldAll ops).created Prod.fst]
    apply List.Perm.length_eq
    rw [List.perm_ext_iff_of_nodup hwf.1 (List.nodup_dedup _)]
    intro k
    rw [List.mem_dedup, foldAll, mem_keys_foldFrom]
    simp [newMarketStore]
  · intro e
    have hnd2 : out.Nodup := hperm.symm.nodup_iff.mp hnd
    by_cases h : ((foldAll ops).getSnapshot e.MarketId).1.Created = some e
    · rw [if_pos h]
      exact List.count_eq_one_of_mem hnd2 ((hmem e).mpr h)
    · rw [if_neg h]
      exact List.count_eq_zero_of_not_mem fun hin => h ((hmem e).mp hin)

/-- C9 on the two `MarketCreated` events of market 1 followed by one of market 2, with the
list delivered in the reverse of the storage order. -/
theorem C9_listCreated_is_current_created_witness :
    [{ rainCreated with MarketId := "2" }, snowCreated].Perm
      ((foldAll [.marketCreated rainCreated, .marketCreated snowCreated,
        .marketCreated { rainCreated with MarketId := "2" }]).listCreated).1 ∧
    [{ rainCreated with MarketId := "2" }, snowCreated].length = 2 ∧
    (createdIds [.marketCreated rainCreated, .marketCreated snowCreated,
        .marketCreated { rainCreated with MarketId := "2" }]).dedup.length = 2 :=
  ⟨by decide,
   by decide,
   (C9_listCreated_is_current_created
      [.marketCreated rainCreated, .marketCreated snowCreated,
        .marketCreated { rainCreated with MarketId := "2" }]
      [{ rainCreated with MarketId := "2" }, snowCreated] (by decide)).1.symm⟩

/-! ## The query handler -/

theorem dropPrefixChars_append (p rest : List Char) :
    dropPrefixChars (p ++ rest) p = some rest := by
  induction p with
  | nil => cases rest <;> simp [dropPrefixChars]
  | cons c cs ih => simp [dropPrefixChars, ih]

theorem TrimPrefix_append (p rest : String) : TrimPrefix (p ++ rest) p = rest := by
  simp [TrimPrefix, String.data_append, dropPrefixChars_append]

theorem splitChars_no_sep (sep : Char) (a : List Char) (h : sep ∉ a) :
    splitChars sep a = [a] := by
  induction a with
  | nil => rfl
  | cons c cs ih =>
    simp only [List.mem_cons, not_or] at h
    simp [splitChars, Ne.symm h.1, ih h.2]

theorem splitChars_append (sep : Char) (a b : List Char) (h : sep ∉ a) :
    splitChars sep (a ++ sep :: b) = a :: splitChars sep b := by
  induction a with
  | nil => simp [splitChars]
  | cons c cs ih =>
    simp only [List.mem_cons, not_or] at h
    simp [splitChars, Ne.symm h.1, ih h.2]

theorem Split_id (id : String) (h : '/' ∉ id.data) : Split id '/' = [id] := by
  simp [Split, splitChars_no_sep _ _ h]

theorem Split_id_sub (id sub : String) (h : '/' ∉ id.data) (hs : '/' ∉ sub.data) :
    Split (id ++ "/" ++ sub) '/' = [id, sub] := by
  have hd : (id ++ "/" ++ sub).data = id.data ++ '/' :: sub.data := by
    simp [String.data_append]
  simp [Split, hd, splitChars_append _ _ _ h, splitChars_no_sep _ _ hs]

theorem ne_empty_of_append (id rest : String) (h : id ≠ "") : id ++ rest ≠ "" := by
  intro h1
  apply h
  have h2 : id.data ++ rest.data = [] := by
    rw [← String.data_append, h1]
  have h3 : id.data = [] := (List.append_eq_nil.mp h2).1
  exact String.ext h3

theorem unknown_snapshot (ops : List FoldOp) (id : String)
    (h : ∀ op ∈ ops, op.MarketId ≠ id) :
    ((foldAll ops).getSnapshot id).1 =
      { Created := none, Comments := [], Danmaku := [], Trades := [] } := by
  have hc : createdOf id ops = [] :=
    createdOf_eq_nil id ops fun e he => h _ he
  have aux : ∀ l : List FoldOp, (∀ op ∈ l, op.MarketId ≠ id) →
      tradesOf id l = [] ∧ commentsOf id l = [] ∧ danmakuOf id l = [] := by
    intro l
    induction l with
    | nil => intro _; exact ⟨rfl, rfl, rfl⟩
    | cons op l ih =>
      intro hl
      obtain ⟨h1, h2, h3⟩ := ih fun o ho => hl o (List.mem_cons_of_mem _ ho)
      have h0 := hl op (List.mem_cons_self _ _)
      rw [tradesOf_cons, commentsOf_cons, danmakuOf_cons, h1, h2, h3]
      cases op <;> simp_all [tradesOf, commentsOf, danmakuOf, FoldOp.MarketId]
  obtain ⟨h1, h2, h3⟩ := aux ops h
  simp only [marketStore.getSnapshot, foldAll, List.nil_append]
  rw [trades_foldFrom, comments_foldFrom, danmaku_foldFrom, created_foldFrom, h1, h2, h3, hc]
  simp [newMarketStore, GoMap.index, GoMap.get?]

theorem marketsHandler_id (store : marketStore) (id : String) (hne : id ≠ "")
    (hslash : '/' ∉ id.data) :
    marketsHandler store ("/markets/" ++ id) =
      writeJSON 200 (.snapshot (store.getSnapshot id).1) := by
  simp [marketsHandler, TrimPrefix_append, Split_id id hslash, hne]

theorem marketsHandler_sub (store : marketStore) (id sub : String) (hne : id ≠ "")
    (hslash : '/' ∉ id.data) (hs : '/' ∉ sub.data) :
    marketsHandler store ("/markets/" ++ (id ++ "/" ++ sub)) =
      if sub = "comments" then writeJSON 200 (.comments (store.getSnapshot id).1.Comments)
      else if sub = "danmaku" then writeJSON 200 (.danmaku (store.getSnapshot id).1.Danmaku)
      else if sub = "trades" then writeJSON 200 (.trades (store.getSnapshot id).1.Trades)
      else if sub = "created" then
        match (store.getSnapshot id).1.Created with
        | none => NotFound
        | some created => writeJSON 200 (.created created)
      else NotFound := by
  have h1 : id ++ "/" ++ sub ≠ "" := by
    rw [String.append_assoc]
    exact ne_empty_of_append id _ hne
  simp [marketsHandler, TrimPrefix_append, Split_id_sub id sub hslash hs, hne, h1]

/-- C10, refuted as stated: on the store of the scenario, where no event of market 2 was ever
folded, the snapshot query and the comments, danmaku and trades queries of market 2 are
answered with status 200. -/
theorem C10_counterexample_unknown_market_is_200 :
    (∀ op ∈ [FoldOp.marketCreated rainCreated, FoldOp.trade rainBuy], op.MarketId ≠ "2") ∧
    marketsHandler (foldAll [.marketCreated rainCreated, .trade rainBuy]) "/markets/2" =
      { status := 200
        payload := .snapshot { Created := none, Comments := [], Danmaku := [], Trades := [] } } ∧
    (marketsHandler (foldAll [.marketCreated rainCreated, .trade rainBuy])
      "/markets/2/comments").status = 200 ∧
    (marketsHandler (foldAll [.marketCreated rainCreated, .trade rainBuy])
      "/markets/2/danmaku").status = 200 ∧
    (marketsHandler (foldAll [.marketCreated rainCreated, .trade rainBuy])
      "/markets/2/trades").status = 200 := by
  decide

/-- C10, amended: for every store reached from the empty store by fold operations and every
market id (not empty, without a slash) of which no event was folded, the query
`/markets/{id}/created` is answered not-found with status 404, the query `/markets/{id}` is
answered with status 200 and the empty snapshot, and the queries `/markets/{id}/comments`,
`/danmaku` and `/trades` are answered with status 200 and an empty sequence. -/
theorem C10_unknown_market_replies (ops : List FoldOp) (id : String) (hne : id ≠ "")
    (hslash : '/' ∉ id.data) (hunknown : ∀ op ∈ ops, op.MarketId ≠ id) :
    marketsHandler (foldAll ops) ("/markets/" ++ id ++ "/created") = NotFound ∧
    NotFound.status = 404 ∧
    marketsHandler (foldAll ops) ("/markets/" ++ id) =
      writeJSON 200
        (.snapshot { Created := none, Comments := [], Danmaku := [], Trades := [] }) ∧
    marketsHandler (foldAll ops) ("/markets/" ++ id ++ "/comments") =
      writeJSON 200 (.comments []) ∧
    marketsHandler (foldAll ops) ("/markets/" ++ id ++ "/danmaku") =
      writeJSON 200 (.danmaku []) ∧
    marketsHandler (foldAll ops) ("/markets/" ++ id ++ "/trades") =
      writeJSON 200 (.trades []) := by
  have hsnap := unknown_snapshot ops id hunknown
  have hpath : ∀ sub : String,
      "/markets/" ++ id ++ ("/" ++ sub) = "/markets/" ++ (id ++ "/" ++ sub) := by
    intro sub
    simp [String.append_assoc]
  refine ⟨?_, rfl, ?_, ?_, ?_, ?_⟩
  · have := marketsHandler_sub (foldAll ops) id "created" hne hslash (by decide)
    rw [← hpath] at this
    rw [hsnap] at this
    exact this
  · rw [marketsHandler_id _ _ hne hslash, hsnap]
  · have := marketsHandler_sub (foldAll ops) id "comments" hne hslash (by decide)
    rw [← hpath, hsnap] at this
    exact this
  · have := marketsHandler_sub (foldAll ops) id "danmaku" hne hslash (by decide)
    rw [← hpath, hsnap] at this
    exact this
  · have := marketsHandler_sub (foldAll ops) id "trades" hne hslash (by decide)
    rw [← hpath, hsnap] at this
    exact this

/-- C10 amended, on the store of the scenario and market 2. -/
theorem C10_unknown_market_replies_witness :
    marketsHandler (foldAll [.marketCreated rainCreated, .trade rainBuy])
      "/markets/2/created" = NotFound ∧
    marketsHandler (foldAll [.marketCreated rainCreated, .trade rainBuy]) "/markets/2" =
      writeJSON 200
        (.snapshot { Created := none, Comments := [], Danmaku := [], Trades := [] }) :=
  ⟨(C10_unknown_market_replies [.marketCreated rainCreated, .trade rainBuy] "2" (by decide)
      (by decide) (by decide)).1,
   (C10_unknown_market_replies [.marketCreated rainCreated, .trade rainBuy] "2" (by decide)
      (by decide) (by decide)).2.2.1⟩

end AgentPrediction
